import Mathlib

/-!
Shallow embedding of the Telegram file-sharing bot in `src/main.py` and
verification of the frozen claims about its specification.

Modelling conventions:
* Python strings are Lean `String` values; character-level operations work
  on `String.toList`.
* The MongoDB collections (`files`, `admins`, `users`, `stats`) are modelled
  as Lean lists (documents in natural order, i.e. insertion order, which is
  the order an unsorted `find()` returns) and a single `Stats` record.
* `update_one` / `delete_one` act on the first matching document, exactly as
  in MongoDB; `$inc`, `$set`, `$addToSet` and `$pull` are modelled field by
  field.
* Timestamps (`datetime.now()`) are passed in explicitly as `Nat` values.
* The outcome of the external send step of a download (success or a raised
  exception caught at line 544) is passed in as a `deliverOk : Bool` flag.
-/

namespace FileBot

/-! ## Python string primitives -/

/-- Boolean test that `p` is a leading segment of `l`; models Python
`str.startswith` at the character level. -/
def isPfx : List Char → List Char → Bool
  | [], _ => true
  | _ :: _, [] => false
  | a :: as, b :: bs => a == b && isPfx as bs

/-- Boolean substring test on character lists; models the Python `in`
operator on strings (for a single pattern). -/
def isSub (pat : List Char) : List Char → Bool
  | [] => isPfx pat []
  | c :: cs => isPfx pat (c :: cs) || isSub pat cs

/-- Fuel-indexed worker for `replaceAll`.  One unit of fuel is spent per
step; the wrapper passes the length of the list, which always suffices
because each step consumes at least one character. -/
def replaceAllAux (pat : List Char) : Nat → List Char → List Char
  | _, [] => []
  | 0, l => l
  | Nat.succ fuel, c :: cs =>
    if isPfx pat (c :: cs) && !pat.isEmpty then
      replaceAllAux pat fuel (List.drop pat.length (c :: cs))
    else
      c :: replaceAllAux pat fuel cs

/-- Deletes every occurrence of `pat`; models Python
`data.replace(pat, "")` as used at lines 493, 504 and 508 of the source. -/
def replaceAll (pat l : List Char) : List Char :=
  replaceAllAux pat l.length l

/-- Models Python `str.lower()` by case-folding character by character.
(Defined through the character list so that it evaluates inside the
kernel; `String.toLower` computes the same list.) -/
def lowerStr (s : String) : String := (s.toList.map Char.toLower).asString

/-- Models Python `w.startswith(pre)` on strings. -/
def pyStartsWith (w pre : String) : Bool := isPfx pre.toList w.toList

/-- Splits on runs of whitespace, discarding empty fields; models the
argument-free Python `str.split()` used at line 114. -/
def splitWSAux (acc : List Char) : List Char → List (List Char)
  | [] => if acc.isEmpty then [] else [acc.reverse]
  | c :: cs =>
    if c.isWhitespace then
      if acc.isEmpty then splitWSAux [] cs
      else acc.reverse :: splitWSAux [] cs
    else splitWSAux (c :: acc) cs

/-- Whitespace split of a string into words, as Python `caption.split()`. -/
def splitWS (s : String) : List String :=
  (splitWSAux [] s.toList).map List.asString

/-- Removes every leading and trailing hash character; models Python
`word.strip("#")` at line 115. -/
def stripHash (w : String) : String :=
  (((w.toList.dropWhile (· == '#')).reverse.dropWhile (· == '#')).reverse).asString

/-! ## Generic first-match collection operations (MongoDB `update_one` /
`delete_one` on an unsorted collection). -/

/-- Removes the first element satisfying `p`; models `delete_one`. -/
def deleteFirst (p : α → Bool) : List α → List α
  | [] => []
  | x :: xs => if p x then xs else x :: deleteFirst p xs

/-- Rewrites the first element satisfying `p` with `g`; models
`update_one` with a modification `g`. -/
def updateFirst (p : α → Bool) (g : α → α) : List α → List α
  | [] => []
  | x :: xs => if p x then g x :: xs else x :: updateFirst p g xs

/-! ## Data model -/

/-- One document of the `files` collection, exactly the fields inserted at
lines 118-127 of the source.  The tag list is embedded in the document, so
it travels with the record in every read, update and delete. -/
structure FileRecord where
  file_id : String
  file_name : String
  file_type : String
  description : String
  tags : List String
  uploaded_by : Nat
  upload_date : Nat
  download_count : Nat
deriving Repr, DecidableEq

/-- One document of the `admins` collection (line 359). -/
structure AdminEntry where
  user_id : Nat
  added_by : Nat
  added_date : Nat
deriving Repr, DecidableEq

/-- The singleton `stats` document (lines 28-33).  `total_files` is an
`Int` because the raw decrement at line 499 can drive it below zero. -/
structure Stats where
  total_files : Int
  total_downloads : Nat
  total_users : Nat
  last_updated : Nat
deriving Repr, DecidableEq

/-- The whole persistent state of the bot: the four logical collections. -/
structure BotState where
  files : List FileRecord
  admins : List AdminEntry
  users : List Nat
  stats : Stats
deriving Repr, DecidableEq

/-- The state after the module-level initialization at lines 27-33: empty
collections and a zeroed stats document. -/
def initState : BotState :=
  { files := [], admins := [], users := [],
    stats := { total_files := 0, total_downloads := 0, total_users := 0,
               last_updated := 0 } }

/-! ## Helper functions of the source (lines 36-48) -/

/-- Model of `is_admin` (lines 36-40).  The source builds
`ADMIN_IDS + [admin_id for admin in db["admins"].find()]`: the
comprehension binds the loop variable `admin` but its body names
`admin_id`, which is defined nowhere, so the very first element drawn from
a non-empty `admins` collection raises `NameError`.  With an empty
collection the comprehension body is never evaluated and the check reduces
to membership in the bootstrap list. -/
def is_admin (admin_ids : List Nat) (dynAdmins : List AdminEntry)
    (user_id : Nat) : Except String Bool :=
  if dynAdmins.isEmpty then Except.ok (admin_ids.contains user_id)
  else Except.error "NameError: name admin_id is not defined"

/-- Model of `get_file_info` (lines 42-44): `find_one` on `file_id`. -/
def find_one (files : List FileRecord) (fid : String) : Option FileRecord :=
  files.find? (fun f => f.file_id == fid)

/-- Model of `update_stats` (lines 46-48): `$inc` the named field by one
and `$set` the `last_updated` timestamp. -/
def update_stats (field : String) (now : Nat) (st : Stats) : Stats :=
  { total_files := if field == "total_files" then st.total_files + 1 else st.total_files,
    total_downloads := if field == "total_downloads" then st.total_downloads + 1 else st.total_downloads,
    total_users := if field == "total_users" then st.total_users + 1 else st.total_users,
    last_updated := now }

/-! ## Command handlers (lines 51-479) -/

/-- Model of the user-registration part of `start` (lines 73-82): insert a
`users` document and bump `total_users` only when no document with this
`user_id` exists yet.  Only the `user_id` field of the stored document is
ever read back by the program (line 74), so the collection is modelled as
the list of registered ids. -/
def start_cmd (user_id now : Nat) (s : BotState) : BotState :=
  if s.users.contains user_id then s
  else { s with users := s.users ++ [user_id],
                stats := update_stats "total_users" now s.stats }

/-- Tag extraction of `handle_file` (lines 112-115): only when the caption
contains a hash at all, split the caption on whitespace, keep the words
that start with a hash, and strip leading and trailing hashes from each.
No case-folding and no duplicate removal happens here. -/
def extract_tags (caption : String) : List String :=
  if caption.toList.contains '#' then
    ((splitWS caption).filter (fun w => pyStartsWith w "#")).map stripHash
  else []

/-- The document built by `handle_file` (lines 106-127).  `declaredName`
is `file.file_name` when the media object has one (documents, videos,
audio), otherwise the name is synthesized from the media kind and the
timestamp; `cap` is `update.message.caption`, defaulted to the empty
string at line 108. -/
def mkFileRecord (fid : String) (declaredName : Option String)
    (file_type : String) (cap : Option String) (uploader now : Nat) :
    FileRecord :=
  { file_id := fid,
    file_name := declaredName.getD (file_type ++ "_" ++ toString now),
    file_type := file_type,
    description := cap.getD "",
    tags := extract_tags (cap.getD ""),
    uploaded_by := uploader,
    upload_date := now,
    download_count := 0 }

/-- Model of `handle_file` (lines 84-141) past the media-extraction step:
the admin gate at line 86, then `insert_one` of the new document and the
`total_files` bump.  Returns the new state and whether an insert
happened. -/
def handle_file (isAdminCaller : Bool) (fid : String)
    (declaredName : Option String) (file_type : String) (cap : Option String)
    (uploader now : Nat) (s : BotState) : BotState × Bool :=
  if !isAdminCaller then (s, false)
  else
    ({ s with
        files := s.files ++ [mkFileRecord fid declaredName file_type cap uploader now],
        stats := update_stats "total_files" now s.stats }, true)

/-- Characters with a special meaning in a regular expression pattern.
The keyword of a search reaches the store as a `$regex` pattern (lines
158-159), so these characters are not matched literally by the server. -/
def regexMetaChar (c : Char) : Bool :=
  c == '.' || c == '*' || c == '+' || c == '?' || c == '[' || c == ']'
    || c == '(' || c == ')' || c == '{' || c == '}' || c == '|' || c == '^'
    || c == '$' || c == '\\'

/-- A keyword free of regex metacharacters.  On such a pattern a regex
engine performs exactly literal substring search (case-insensitive here,
by the `i` option together with the lowercased keyword); on a keyword
with metacharacters the server follows the full regex semantics, which
this model does not commit to. -/
def regexLiteral (kw : String) : Bool :=
  kw.toList.all (fun c => !regexMetaChar c)

/-- Case-insensitive literal substring containment: the behavior of one
`$regex`+`i` clause (lines 158-159) on a metacharacter-free keyword (the
keyword is already lowercased by the handler at line 153). -/
def literalMatch (kw s : String) : Bool := isSub kw.toList (lowerStr s).toList

/-- The query of lines 156-164 with the regex engine abstracted: the
server keeps a document when the engine `rm` matches the keyword pattern
against `file_name` or `description`, or the keyword is an exact `$in`
member of `tags`; `find(query).limit(10)` has no sort stage, so matches
come back in natural (insertion) order, capped at ten documents.  The
engine is external (the MongoDB server); the model constrains it only on
metacharacter-free keywords, where regex matching is `literalMatch`. -/
def search_files_re (rm : String → String → Bool) (files : List FileRecord)
    (kw : String) : List FileRecord :=
  (files.filter (fun f => rm kw f.file_name || rm kw f.description
    || f.tags.contains kw)).take 10

/-- The match predicate of the query (lines 156-162) at a
metacharacter-free keyword, where both `$regex` clauses are literal
case-insensitive substring containment. -/
def matchesKw (kw : String) (f : FileRecord) : Bool :=
  literalMatch kw f.file_name || literalMatch kw f.description
    || f.tags.contains kw

/-- The query at line 164 at a metacharacter-free keyword: `search_files_re`
instantiated with the literal engine.  Faithful to the program exactly for
keywords satisfying `regexLiteral`; for other keywords the program follows
the full regex semantics of the server. -/
def search_files (files : List FileRecord) (kw : String) : List FileRecord :=
  (files.filter (matchesKw kw)).take 10

/-- Outcome of a command handler that first checks authorization and then
argument shape. -/
inductive CmdResult (α : Type) where
  | denied
  | usageError
  | ok (a : α)
deriving Repr, DecidableEq

/-- Model of `search_files` the handler (lines 143-164): admin gate,
argument check, then the query on the lowercased joined arguments (the
query at the literal engine, so faithful for keywords satisfying
`regexLiteral`; the denied and usage branches do not run the query at
all). -/
def search_cmd (isAdminCaller : Bool) (args : List String)
    (files : List FileRecord) : CmdResult (List FileRecord) :=
  if !isAdminCaller then CmdResult.denied
  else
    match args with
    | [] => CmdResult.usageError
    | _ => CmdResult.ok (search_files files (lowerStr (String.intercalate " " args)))

/-- Model of `file_info` (lines 446-461): admin gate, argument check, then
`find_one` on the first argument.  The reply (info text plus download
button) or the not-found message is determined by the returned option. -/
def file_info_cmd (isAdminCaller : Bool) (args : List String)
    (files : List FileRecord) : CmdResult (Option FileRecord) :=
  if !isAdminCaller then CmdResult.denied
  else
    match args with
    | [] => CmdResult.usageError
    | fid :: _ => CmdResult.ok (find_one files fid)

/-- Model of the catalog mutation of `edit_description` (lines 245-248):
`update_one` setting `description` on the first matching document. -/
def edit_desc (files : List FileRecord) (fid desc : String) : List FileRecord :=
  updateFirst (fun f => f.file_id == fid) (fun f => { f with description := desc }) files

/-- Model of the catalog mutation of `edit_filename` (lines 268-271). -/
def edit_name (files : List FileRecord) (fid name : String) : List FileRecord :=
  updateFirst (fun f => f.file_id == fid) (fun f => { f with file_name := name }) files

/-- Model of the catalog mutation of `add_tag` (lines 288-294): the tag is
lowercased by the handler, then `$addToSet` appends it to the first
matching document only when not already present. -/
def add_tag (files : List FileRecord) (fid rawTag : String) : List FileRecord :=
  updateFirst (fun f => f.file_id == fid)
    (fun f => if f.tags.contains (lowerStr rawTag) then f
              else { f with tags := f.tags ++ [(lowerStr rawTag)] })
    files

/-- Model of the catalog mutation of `remove_tag` (lines 318-324): `$pull`
removes every copy of the (lowercased) tag from the first matching
document. -/
def remove_tag (files : List FileRecord) (fid rawTag : String) : List FileRecord :=
  updateFirst (fun f => f.file_id == fid)
    (fun f => { f with tags := f.tags.filter (fun t => !(t == (lowerStr rawTag))) })
    files

/-- Model of the registry mutation of `add_admin` (lines 354-359): already
an admin by either origin is a silent no-op, otherwise a dynamic entry is
inserted.  Returns the new collection and whether an insert happened. -/
def add_admin (admin_ids : List Nat) (dynAdmins : List AdminEntry)
    (new_id requester now : Nat) : List AdminEntry × Bool :=
  if admin_ids.contains new_id
      || (dynAdmins.find? (fun e => e.user_id == new_id)).isSome then
    (dynAdmins, false)
  else
    (dynAdmins ++ [{ user_id := new_id, added_by := requester, added_date := now }], true)

/-- Result of the `remove_admin` mutation. -/
inductive RemoveAdminResult where
  | protectedBootstrap
  | removed
  | notAdmin
deriving Repr, DecidableEq

/-- Model of the registry mutation of `remove_admin` (lines 378-388): a
bootstrap id is rejected before touching the store; otherwise `delete_one`
removes the first matching dynamic entry and the reply is chosen by
`deleted_count`. -/
def remove_admin (admin_ids : List Nat) (dynAdmins : List AdminEntry)
    (target : Nat) : List AdminEntry × RemoveAdminResult :=
  if admin_ids.contains target then (dynAdmins, RemoveAdminResult.protectedBootstrap)
  else
    let remaining := deleteFirst (fun e => e.user_id == target) dynAdmins
    if remaining.length < dynAdmins.length then (remaining, RemoveAdminResult.removed)
    else (remaining, RemoveAdminResult.notAdmin)

/-- Model of the `download_count` bump at line 513: `update_one` with
`$inc` on the first matching document. -/
def inc_download (files : List FileRecord) (fid : String) : List FileRecord :=
  updateFirst (fun f => f.file_id == fid)
    (fun f => { f with download_count := f.download_count + 1 }) files

/-- What `handle_callback` reports back through `edit_message_text`. -/
inductive CbOutcome where
  | notAuthorized
  | deleted (file_name : String)
  | deleteNotFound
  | cancelled
  | sent (file_name : String)
  | sendError
  | downloadNotFound
  | ignored
deriving Repr, DecidableEq

/-- Model of `handle_callback` (lines 481-548): the admin gate at line
486, then dispatch on the string shape of the payload.  `delete_yes_`
deletes the first matching document and applies the raw `total_files`
decrement of line 499 (which does not touch `last_updated`); `delete_no_`
changes nothing; `download_` bumps the download counters unconditionally
and then attempts the external send, whose success is `deliverOk`.  The
file id is recovered exactly as in the source, by deleting every
occurrence of the matched pattern from the payload. -/
def handle_callback (isAdminCaller : Bool) (data : String) (deliverOk : Bool)
    (now : Nat) (s : BotState) : BotState × CbOutcome :=
  if !isAdminCaller then (s, CbOutcome.notAuthorized)
  else if isPfx "delete_yes_".toList data.toList then
    let fid := (replaceAll "delete_yes_".toList data.toList).asString
    match find_one s.files fid with
    | some f =>
        ({ s with files := deleteFirst (fun g => g.file_id == fid) s.files,
                  stats := { s.stats with total_files := s.stats.total_files - 1 } },
         CbOutcome.deleted f.file_name)
    | none => (s, CbOutcome.deleteNotFound)
  else if isPfx "delete_no_".toList data.toList then (s, CbOutcome.cancelled)
  else if isPfx "download_".toList data.toList then
    let fid := (replaceAll "download_".toList data.toList).asString
    match find_one s.files fid with
    | some f =>
        ({ s with files := inc_download s.files fid,
                  stats := update_stats "total_downloads" now s.stats },
         if deliverOk then CbOutcome.sent f.file_name else CbOutcome.sendError)
    | none => (s, CbOutcome.downloadNotFound)
  else (s, CbOutcome.ignored)

/-! ## The event-level step function

Each inbound unit of work that can mutate persistent state, with the
parameters the respective handler reads.  Handlers are applied on their
authorized path; an unauthorized caller is turned away at the gate with no
state change, so every reachable transition is either the identity or one
of these. -/

inductive Event where
  | startCmd (user_id now : Nat)
  | upload (fid : String) (declaredName : Option String) (file_type : String)
      (cap : Option String) (uploader now : Nat)
  | editDescCmd (fid desc : String)
  | editNameCmd (fid name : String)
  | addTagCmd (fid tag : String)
  | removeTagCmd (fid tag : String)
  | addAdminCmd (new_id requester now : Nat)
  | removeAdminCmd (target : Nat)
  | callback (data : String) (deliverOk : Bool) (now : Nat)

/-- One event-processing step of the bot over the persistent state. -/
def step (admin_ids : List Nat) (s : BotState) : Event → BotState
  | Event.startCmd uid now => start_cmd uid now s
  | Event.upload fid dn ft cap up now => (handle_file true fid dn ft cap up now s).1
  | Event.editDescCmd fid d => { s with files := edit_desc s.files fid d }
  | Event.editNameCmd fid n => { s with files := edit_name s.files fid n }
  | Event.addTagCmd fid t => { s with files := add_tag s.files fid t }
  | Event.removeTagCmd fid t => { s with files := remove_tag s.files fid t }
  | Event.addAdminCmd nid req now => { s with admins := (add_admin admin_ids s.admins nid req now).1 }
  | Event.removeAdminCmd t => { s with admins := (remove_admin admin_ids s.admins t).1 }
  | Event.callback data dOk now => (handle_callback true data dOk now s).1

/-- A sequence of `/start` events, each a pair of caller id and time. -/
def runStarts (events : List (Nat × Nat)) (s : BotState) : BotState :=
  events.foldl (fun st p => start_cmd p.1 p.2 st) s

/-! ## Library lemmas about the embedding primitives -/


theorem toList_asString (s : String) : s.toList.asString = s := by cases s; rfl

theorem toList_append (a b : String) : (a ++ b).toList = a.toList ++ b.toList := by
  cases a; cases b; rfl

theorem isPfx_append_self (p r : List Char) : isPfx p (p ++ r) = true := by
  induction p with
  | nil => rfl
  | cons a as ih => simp [isPfx, ih]

theorem replaceAllAux_of_not_sub (pat : List Char) :
    ∀ (fuel : Nat) (l : List Char), isSub pat l = false → replaceAllAux pat fuel l = l := by
  intro fuel
  induction fuel with
  | zero => intro l _; cases l <;> rfl
  | succ n ih =>
    intro l h
    cases l with
    | nil => rfl
    | cons c cs =>
      rw [isSub, Bool.or_eq_false_iff] at h
      rw [replaceAllAux, if_neg, ih cs h.2]
      simp [h.1]

theorem replaceAll_pref (pat rest : List Char) (hne : pat.isEmpty = false)
    (h : isSub pat rest = false) : replaceAll pat (pat ++ rest) = rest := by
  cases pat with
  | nil => simp [List.isEmpty] at hne
  | cons p ps =>
    show replaceAllAux (p :: ps) ((p :: ps) ++ rest).length ((p :: ps) ++ rest) = rest
    rw [List.cons_append, List.length_cons, replaceAllAux, if_pos]
    · rw [show List.drop (p :: ps).length (p :: (ps ++ rest)) = rest by
        rw [List.length_cons, List.drop_succ_cons, List.drop_left]]
      exact replaceAllAux_of_not_sub _ _ _ h
    · rw [← List.cons_append, isPfx_append_self]
      simp [List.isEmpty]


theorem deleteFirst_sublist (p : a0 → Bool) (l : List a0) : (deleteFirst p l).Sublist l := by
  induction l with
  | nil => exact List.Sublist.refl _
  | cons x xs ih =>
    rw [deleteFirst]
    split
    · exact List.sublist_cons_self x xs
    · exact List.Sublist.cons₂ x ih

theorem deleteFirst_of_forall_not (p : a0 → Bool) (l : List a0)
    (h : ∀ x ∈ l, p x = false) : deleteFirst p l = l := by
  induction l with
  | nil => rfl
  | cons x xs ih =>
    rw [deleteFirst, if_neg (by simp [h x (List.mem_cons_self x xs)]),
      ih (fun y hy => h y (List.mem_cons_of_mem x hy))]

theorem length_deleteFirst_of_mem {p : a0 → Bool} {l : List a0} {x : a0}
    (hx : x ∈ l) (hp : p x = true) :
    (deleteFirst p l).length + 1 = l.length := by
  induction l with
  | nil => cases hx
  | cons y ys ih =>
    rw [deleteFirst]
    split
    · rfl
    · rcases List.mem_cons.1 hx with rfl | hmem
      · simp_all
      · simp [List.length_cons, ih hmem]

theorem not_pred_of_mem_deleteFirst {p : a0 → Bool} {l : List a0}
    (hcount : l.countP p ≤ 1) :
    ∀ x ∈ deleteFirst p l, p x = false := by
  induction l with
  | nil => intro x hx; cases hx
  | cons y ys ih =>
    rw [deleteFirst]
    split
    · rename_i hpy
      intro x hx
      have h0 : ys.countP p = 0 := by
        have := List.countP_cons_of_pos p ys hpy
        omega
      simpa using List.countP_eq_zero.1 h0 x hx
    · rename_i hpy
      intro x hx
      rcases List.mem_cons.1 hx with rfl | hmem
      · simpa using hpy
      · refine ih ?_ x hmem
        rw [List.countP_cons_of_neg p ys (by simpa using hpy)] at hcount
        exact hcount

theorem countP_key_le_one {b0 : Type} [BEq b0] [LawfulBEq b0]
    (key : a0 → b0) (k : b0) (l : List a0)
    (h : (l.map key).Nodup) : l.countP (fun x => key x == k) ≤ 1 := by
  induction l with
  | nil => simp
  | cons y ys ih =>
    rw [List.map_cons, List.nodup_cons] at h
    by_cases hk : key y == k
    · rw [List.countP_cons_of_pos _ _ (by simpa using hk)]
      have h0 : ys.countP (fun x => key x == k) = 0 := by
        refine List.countP_eq_zero.2 ?_
        intro x hx hbeq
        have hxk : key x = k := by simpa using hbeq
        have hyk : key y = k := by simpa using hk
        exact h.1 (hyk ▸ hxk ▸ List.mem_map_of_mem key hx)
      omega
    · rw [List.countP_cons_of_neg _ _ (by simpa using hk)]
      exact ih h.2

theorem find?_eq_none_of_countP {p : a0 → Bool} {l : List a0}
    (hcount : l.countP p ≤ 1) : (deleteFirst p l).find? p = none := by
  rw [List.find?_eq_none]
  intro x hx
  simp [not_pred_of_mem_deleteFirst hcount x hx]

theorem find?_updateFirst {p : a0 → Bool} (g : a0 → a0) {l : List a0} {x : a0}
    (hg : ∀ y, p y = true → p (g y) = true)
    (h : l.find? p = some x) : (updateFirst p g l).find? p = some (g x) := by
  induction l with
  | nil => cases h
  | cons y ys ih =>
    rw [updateFirst]
    by_cases hpy : p y = true
    · rw [if_pos hpy]
      rw [List.find?_cons_of_pos _ hpy] at h
      rw [List.find?_cons_of_pos _ (hg y hpy)]
      cases h
      rfl
    · rw [if_neg hpy]
      rw [List.find?_cons_of_neg _ (by simpa using hpy)] at h
      rw [List.find?_cons_of_neg _ (by simpa using hpy)]
      exact ih h


theorem not_pfx_delYes_of_download (r : List Char) :
    isPfx "delete_yes_".toList ("download_".toList ++ r) = false := rfl

theorem not_pfx_delNo_of_download (r : List Char) :
    isPfx "delete_no_".toList ("download_".toList ++ r) = false := rfl

theorem handle_callback_delete_yes (fid : String)
    (hsub : isSub "delete_yes_".toList fid.toList = false)
    (dOk : Bool) (now : Nat) (s : BotState) :
    handle_callback true ("delete_yes_" ++ fid) dOk now s =
      match find_one s.files fid with
      | some f =>
          ({ s with files := deleteFirst (fun g => g.file_id == fid) s.files,
                    stats := { s.stats with total_files := s.stats.total_files - 1 } },
           CbOutcome.deleted f.file_name)
      | none => (s, CbOutcome.deleteNotFound) := by
  have hdata : ("delete_yes_" ++ fid).toList = "delete_yes_".toList ++ fid.toList :=
    toList_append _ _
  have hrep : (replaceAll "delete_yes_".toList ("delete_yes_".toList ++ fid.toList)).asString = fid := by
    rw [replaceAll_pref "delete_yes_".toList fid.toList (by rfl) hsub, toList_asString]
  simp only [handle_callback, hdata, Bool.not_true, Bool.false_eq_true, if_false,
    isPfx_append_self, if_true, hrep]

theorem handle_callback_download (fid : String)
    (hsub : isSub "download_".toList fid.toList = false)
    (dOk : Bool) (now : Nat) (s : BotState) :
    handle_callback true ("download_" ++ fid) dOk now s =
      match find_one s.files fid with
      | some f =>
          ({ s with files := inc_download s.files fid,
                    stats := update_stats "total_downloads" now s.stats },
           if dOk then CbOutcome.sent f.file_name else CbOutcome.sendError)
      | none => (s, CbOutcome.downloadNotFound) := by
  have hdata : ("download_" ++ fid).toList = "download_".toList ++ fid.toList :=
    toList_append _ _
  have hrep : (replaceAll "download_".toList ("download_".toList ++ fid.toList)).asString = fid := by
    rw [replaceAll_pref "download_".toList fid.toList (by rfl) hsub, toList_asString]
  simp only [handle_callback, hdata, Bool.not_true, Bool.false_eq_true, if_false,
    not_pfx_delYes_of_download, not_pfx_delNo_of_download,
    isPfx_append_self, if_true, hrep]



theorem mem_search_files {files : List FileRecord} {kw : String} {f : FileRecord}
    (h : f ∈ search_files files kw) : matchesKw kw f = true ∧ f ∈ files := by
  have h1 := List.mem_of_mem_take h
  exact ⟨(List.mem_filter.1 h1).2, (List.mem_filter.1 h1).1⟩

theorem search_files_sublist (files : List FileRecord) (kw : String) :
    (search_files files kw).Sublist files :=
  (List.take_sublist _ _).trans (List.filter_sublist _)

theorem search_files_length (files : List FileRecord) (kw : String) :
    (search_files files kw).length ≤ 10 := by
  rw [search_files, List.length_take]
  omega

theorem search_files_re_sublist (rm : String → String → Bool)
    (files : List FileRecord) (kw : String) :
    (search_files_re rm files kw).Sublist files :=
  (List.take_sublist _ _).trans (List.filter_sublist _)

theorem search_files_re_length (rm : String → String → Bool)
    (files : List FileRecord) (kw : String) :
    (search_files_re rm files kw).length ≤ 10 := by
  rw [search_files_re, List.length_take]
  omega

theorem search_files_re_eq_literal (rm : String → String → Bool)
    (hrm : ∀ kw s, regexLiteral kw = true → rm kw s = literalMatch kw s)
    (files : List FileRecord) (kw : String) (hkw : regexLiteral kw = true) :
    search_files_re rm files kw = search_files files kw := by
  rw [search_files_re, search_files]
  congr 1
  refine List.filter_congr ?_
  intro f _
  rw [matchesKw, hrm kw f.file_name hkw, hrm kw f.description hkw]

theorem search_files_complete {files : List FileRecord} {kw : String} {f : FileRecord}
    (hf : f ∈ files) (hm : matchesKw kw f = true) :
    f ∈ search_files files kw ∨ (search_files files kw).length = 10 := by
  by_cases hlen : (files.filter (matchesKw kw)).length ≤ 10
  · left
    rw [search_files, List.take_of_length_le hlen]
    exact List.mem_filter.2 ⟨hf, hm⟩
  · right
    rw [search_files, List.length_take]
    omega

theorem handle_callback_stats_mono (isAdm : Bool) (data : String) (dOk : Bool)
    (now : Nat) (s : BotState) :
    s.stats.total_downloads ≤ ((handle_callback isAdm data dOk now s).1).stats.total_downloads ∧
    s.stats.total_users ≤ ((handle_callback isAdm data dOk now s).1).stats.total_users := by
  rw [handle_callback]
  dsimp only
  split
  · exact ⟨Nat.le_refl _, Nat.le_refl _⟩
  split
  · split
    · exact ⟨Nat.le_refl _, Nat.le_refl _⟩
    · exact ⟨Nat.le_refl _, Nat.le_refl _⟩
  split
  · exact ⟨Nat.le_refl _, Nat.le_refl _⟩
  split
  · split
    · refine ⟨?_, ?_⟩ <;> simp [update_stats]
    · exact ⟨Nat.le_refl _, Nat.le_refl _⟩
  · exact ⟨Nat.le_refl _, Nat.le_refl _⟩

theorem contains_eq_true_of_mem {l : List Nat} {a : Nat} (h : a ∈ l) :
    l.contains a = true := by
  simpa using h

theorem start_cmd_mem {uid now : Nat} {s : BotState} (h : uid ∈ s.users) :
    start_cmd uid now s = s := by
  rw [start_cmd, if_pos (contains_eq_true_of_mem h)]

theorem start_cmd_not_mem {uid now : Nat} {s : BotState} (h : uid ∉ s.users) :
    (start_cmd uid now s).users = s.users ++ [uid] ∧
    (start_cmd uid now s).stats.total_users = s.stats.total_users + 1 ∧
    (start_cmd uid now s).files = s.files := by
  rw [start_cmd, if_neg (by simpa using h)]
  exact ⟨rfl, by simp [update_stats], rfl⟩

theorem runStarts_cons (e : Nat × Nat) (rest : List (Nat × Nat)) (s : BotState) :
    runStarts (e :: rest) s = runStarts rest (start_cmd e.1 e.2 s) := rfl

theorem runStarts_inv (events : List (Nat × Nat)) :
    ∀ s : BotState, s.stats.total_users = s.users.toFinset.card →
      (runStarts events s).stats.total_users = (runStarts events s).users.toFinset.card ∧
      (runStarts events s).users.toFinset = s.users.toFinset ∪ (events.map Prod.fst).toFinset := by
  induction events with
  | nil => intro s h; exact ⟨h, by simp [runStarts]⟩
  | cons e rest ih =>
    intro s h
    rw [runStarts_cons]
    by_cases hmem : e.1 ∈ s.users
    · rw [start_cmd_mem hmem]
      obtain ⟨h1, h2⟩ := ih s h
      refine ⟨h1, ?_⟩
      rw [h2, List.map_cons, List.toFinset_cons, Finset.union_insert,
        Finset.insert_eq_self.2 (Finset.mem_union_left _ (List.mem_toFinset.2 hmem))]
    · obtain ⟨hu, ht, _⟩ := @start_cmd_not_mem e.1 e.2 s hmem
      have hfin : (start_cmd e.1 e.2 s).users.toFinset = insert e.1 s.users.toFinset := by
        rw [hu, List.toFinset_append, Finset.union_comm]
        simp [Finset.insert_eq]
      have hinv : (start_cmd e.1 e.2 s).stats.total_users
          = (start_cmd e.1 e.2 s).users.toFinset.card := by
        rw [ht, hfin, h, Finset.card_insert_of_not_mem (by simpa using hmem)]
      obtain ⟨h1, h2⟩ := ih _ hinv
      refine ⟨h1, ?_⟩
      rw [h2, hfin, List.map_cons, List.toFinset_cons, Finset.union_insert,
        Finset.insert_union]

theorem runStarts_total (events : List (Nat × Nat)) :
    (runStarts events initState).stats.total_users = (events.map Prod.fst).toFinset.card := by
  have h := runStarts_inv events initState (by simp [initState])
  rw [h.1, h.2]
  simp [initState]

/-! ## Concrete fixtures and claim theorems -/


theorem filter_map_eq_filterMap (p : a0 → Bool) (g : a0 → b0) (l : List a0) :
    (l.filter p).map g = l.filterMap (fun x => if p x then some (g x) else none) := by
  induction l with
  | nil => rfl
  | cons x xs ih => by_cases h : p x <;> simp [h, ih]

/-- A registered document used as a concrete fixture in witnesses and
counterexamples. -/
def sampleFile : FileRecord :=
  { file_id := "f1", file_name := "report.pdf", file_type := "document",
    description := "Q3 numbers #finance", tags := ["finance"],
    uploaded_by := 10, upload_date := 1, download_count := 0 }

/-- A concrete state holding exactly `sampleFile`, with matching stats. -/
def sampleState : BotState :=
  { files := [sampleFile], admins := [], users := [],
    stats := { total_files := 1, total_downloads := 0, total_users := 0,
               last_updated := 1 } }

/-- Claim C1: the claim states that isAdmin(userId) returns true iff userId
is in the bootstrap set or present as a dynamic AdminEntry, with no side
effects.  The code contradicts its own intent: the comprehension at line 39
names the undefined variable admin_id instead of the drawn document, so the
check raises NameError as soon as one dynamic AdminEntry exists, instead of
returning true for that entry; only with an empty dynamic store does the
check behave as documented (bootstrap membership). -/
theorem c1_is_admin_code_bug :
    is_admin [] [{ user_id := 42, added_by := 7, added_date := 0 }] 42
      = Except.error "NameError: name admin_id is not defined" ∧
    is_admin [42] [] 42 = Except.ok true ∧
    is_admin [] [] 42 = Except.ok false :=
  ⟨rfl, rfl, rfl⟩

/-- Claim C3, counterexample: a registered artifact (present in the store
and retrievable by an admin) is refused to a non-admin caller by search,
file info and the download callback alike, refuting the claim that
retrieval is unprivileged. -/
theorem c3_retrieval_requires_admin_counterexample :
    find_one sampleState.files "f1" = some sampleFile ∧
    search_cmd true ["finance"] sampleState.files = CmdResult.ok [sampleFile] ∧
    search_cmd false ["finance"] sampleState.files = CmdResult.denied ∧
    file_info_cmd false ["f1"] sampleState.files = CmdResult.denied ∧
    handle_callback false "download_f1" true 2 sampleState
      = (sampleState, CbOutcome.notAuthorized) := by
  refine ⟨rfl, ?_, rfl, rfl, rfl⟩
  decide

/-- Claim C3, amended: retrieval operations are privileged too.  Search,
file info and the download callback each check the admin gate first and
turn a non-admin caller away with no state change; authorization is
required for retrieval exactly as for mutation. -/
theorem c3_retrieval_privileged_amended :
    ∀ (args : List String) (files : List FileRecord) (data : String)
      (dOk : Bool) (now : Nat) (s : BotState),
      search_cmd false args files = CmdResult.denied ∧
      file_info_cmd false args files = CmdResult.denied ∧
      handle_callback false data dOk now s = (s, CbOutcome.notAuthorized) :=
  fun _ _ _ _ _ _ => ⟨rfl, rfl, rfl⟩

/-- Claim C7: removing a bootstrap admin returns protected and leaves the
registry unchanged (the decision depends only on the target, not the
requester, which is not even an input to the store mutation); with no
dynamic entry for the target the result is notAdmin and the registry is
unchanged; otherwise exactly the first (with unique ids: the only) dynamic
entry for the target is removed. -/
theorem c7_remove_admin_spec (admin_ids : List Nat) (dyn : List AdminEntry)
    (target : Nat) :
    (target ∈ admin_ids →
      remove_admin admin_ids dyn target = (dyn, RemoveAdminResult.protectedBootstrap)) ∧
    (target ∉ admin_ids → (∀ e ∈ dyn, e.user_id ≠ target) →
      remove_admin admin_ids dyn target = (dyn, RemoveAdminResult.notAdmin)) ∧
    (target ∉ admin_ids → ∀ e ∈ dyn, e.user_id = target →
      (remove_admin admin_ids dyn target).2 = RemoveAdminResult.removed ∧
      (remove_admin admin_ids dyn target).1.length + 1 = dyn.length ∧
      (remove_admin admin_ids dyn target).1.Sublist dyn ∧
      ((dyn.map AdminEntry.user_id).Nodup →
        ∀ e2 ∈ (remove_admin admin_ids dyn target).1, e2.user_id ≠ target)) := by
  refine ⟨?_, ?_, ?_⟩
  · intro hmem
    rw [remove_admin, if_pos (by simpa using hmem)]
  · intro hnb hnone
    rw [remove_admin, if_neg (by simpa using hnb)]
    dsimp only
    rw [deleteFirst_of_forall_not _ _ (fun e he => by simpa using hnone e he)]
    rw [if_neg (lt_irrefl dyn.length)]
  · intro hnb e he heq
    have hlen : (deleteFirst (fun e => e.user_id == target) dyn).length + 1 = dyn.length :=
      length_deleteFirst_of_mem he (by simpa using heq)
    have hres : remove_admin admin_ids dyn target
        = (deleteFirst (fun e => e.user_id == target) dyn, RemoveAdminResult.removed) := by
      rw [remove_admin, if_neg (by simpa using hnb)]
      dsimp only
      rw [if_pos (by omega)]
    rw [hres]
    refine ⟨rfl, hlen, deleteFirst_sublist _ _, ?_⟩
    intro hnodup e2 he2
    have := not_pred_of_mem_deleteFirst
      (countP_key_le_one AdminEntry.user_id target dyn hnodup) e2 he2
    simpa using this

/-- Claim C7, witness: the theorem applied at a concrete registry with
bootstrap admin 1 and dynamic admin 2. -/
theorem c7_remove_admin_spec_witness :
    remove_admin [1] [{ user_id := 2, added_by := 1, added_date := 0 }] 1
      = ([{ user_id := 2, added_by := 1, added_date := 0 }],
         RemoveAdminResult.protectedBootstrap) ∧
    (remove_admin [1] [{ user_id := 2, added_by := 1, added_date := 0 }] 2).2
      = RemoveAdminResult.removed ∧
    remove_admin [1] [{ user_id := 2, added_by := 1, added_date := 0 }] 3
      = ([{ user_id := 2, added_by := 1, added_date := 0 }],
         RemoveAdminResult.notAdmin) := by
  have h1 := c7_remove_admin_spec [1] [{ user_id := 2, added_by := 1, added_date := 0 }] 1
  have h2 := c7_remove_admin_spec [1] [{ user_id := 2, added_by := 1, added_date := 0 }] 2
  have h3 := c7_remove_admin_spec [1] [{ user_id := 2, added_by := 1, added_date := 0 }] 3
  refine ⟨h1.1 (by decide), ?_, ?_⟩
  · exact (h2.2.2 (by decide) _ (List.mem_singleton_self _) rfl).1
  · exact h3.2.1 (by decide) (by decide)

/-- Claim C9: when the external send step of a download resolution fails,
the already-completed mutations stand: the state is identical to the state
after a successful delivery, the global download counter has been
incremented, the per-file download count has been incremented, and only
the reported outcome differs (a delivery error). -/
theorem c9_no_rollback_on_delivery_failure (s : BotState) (fid : String)
    (f : FileRecord) (now : Nat)
    (hsub : isSub "download_".toList fid.toList = false)
    (hf : find_one s.files fid = some f) :
    (handle_callback true ("download_" ++ fid) false now s).1
      = (handle_callback true ("download_" ++ fid) true now s).1 ∧
    (handle_callback true ("download_" ++ fid) false now s).1.stats.total_downloads
      = s.stats.total_downloads + 1 ∧
    find_one (handle_callback true ("download_" ++ fid) false now s).1.files fid
      = some { f with download_count := f.download_count + 1 } ∧
    (handle_callback true ("download_" ++ fid) false now s).2 = CbOutcome.sendError := by
  rw [handle_callback_download fid hsub false now s,
    handle_callback_download fid hsub true now s, hf]
  dsimp only
  refine ⟨rfl, by simp [update_stats], ?_, rfl⟩
  exact find?_updateFirst _ (fun y hy => hy) hf

/-- Claim C9, witness: the theorem applied to the sample state. -/
theorem c9_no_rollback_witness :
    (handle_callback true ("download_" ++ "f1") false 2 sampleState).1
      = (handle_callback true ("download_" ++ "f1") true 2 sampleState).1 ∧
    (handle_callback true ("download_" ++ "f1") false 2 sampleState).1.stats.total_downloads
      = sampleState.stats.total_downloads + 1 ∧
    (handle_callback true ("download_" ++ "f1") false 2 sampleState).2
      = CbOutcome.sendError := by
  have h := c9_no_rollback_on_delivery_failure sampleState "f1" sampleFile 2
    (by decide) (by decide)
  exact ⟨h.1, h.2.1, h.2.2.2⟩

/-- Claim C10: a first /start from a user inserts exactly one user record
and increments total_users by exactly one; any further /start from the
same user leaves the state unchanged; and over any sequence of /start
events from the initial state, total_users equals the number of distinct
callers. -/
theorem c10_start_registers_once (uid now : Nat) (s : BotState)
    (events : List (Nat × Nat)) :
    (uid ∈ s.users → start_cmd uid now s = s) ∧
    (uid ∉ s.users →
      (start_cmd uid now s).users = s.users ++ [uid] ∧
      (start_cmd uid now s).stats.total_users = s.stats.total_users + 1) ∧
    (runStarts events initState).stats.total_users
      = (events.map Prod.fst).toFinset.card :=
  ⟨fun h => start_cmd_mem h,
   fun h => ⟨(start_cmd_not_mem h).1, (start_cmd_not_mem h).2.1⟩,
   runStarts_total events⟩

/-- Claim C10, witness: user 5 registers once, a repeat /start is a no-op,
and two distinct callers over three /start events count two users. -/
theorem c10_start_registers_once_witness :
    start_cmd 5 4 (start_cmd 5 1 initState) = start_cmd 5 1 initState ∧
    (start_cmd 5 1 initState).users = [5] ∧
    (start_cmd 5 1 initState).stats.total_users = 1 ∧
    (runStarts [(5, 1), (5, 2), (7, 3)] initState).stats.total_users = 2 := by
  have h0 := c10_start_registers_once 5 1 initState [(5, 1), (5, 2), (7, 3)]
  have h1 := c10_start_registers_once 5 4 (start_cmd 5 1 initState) []
  refine ⟨h1.1 (by decide), ?_, ?_, ?_⟩
  · exact ((h0.2.1 (by decide)).1).trans (by decide)
  · exact ((h0.2.1 (by decide)).2).trans (by decide)
  · exact (h0.2.2).trans (by decide)


/-- The earlier of two matching uploads (counterexample fixture). -/
def olderFile : FileRecord :=
  { file_id := "fa", file_name := "alpha x", file_type := "document",
    description := "", tags := [], uploaded_by := 10, upload_date := 1,
    download_count := 0 }

/-- The later of two matching uploads (counterexample fixture). -/
def newerFile : FileRecord :=
  { file_id := "fb", file_name := "beta x", file_type := "document",
    description := "", tags := [], uploaded_by := 10, upload_date := 2,
    download_count := 0 }

/-- The tag derivation the specification describes, written from its words
for comparison with the code: all hash tokens of the caption, case-folded,
hash markers stripped, duplicates collapsed. -/
def specTags (caption : String) : List String :=
  (((splitWS caption).filter (fun w => pyStartsWith w "#")).map
    (fun w => lowerStr (stripHash w))).dedup

/-- Claim C4, counterexample: the code keeps the original case and the
duplicates, so the caption "#Tag #Tag" produces the tag list
["Tag", "Tag"], not the case-folded duplicate-free set the claim
describes. -/
theorem c4_tags_counterexample :
    extract_tags "#Tag #Tag" = ["Tag", "Tag"] ∧
    specTags "#Tag #Tag" = ["tag"] ∧
    extract_tags "#Tag #Tag" ≠ specTags "#Tag #Tag" ∧
    ¬ (extract_tags "#Tag #Tag").Nodup := by decide

/-- Claim C4, amended: register stores the new record with description
equal to the raw caption verbatim (or empty when absent) and tags equal to
the whitespace-delimited words of the caption that start with a hash, with
leading and trailing hash characters stripped, kept in order, with case
preserved and duplicates kept (and an empty tag list when the caption has
no hash at all); the example caption "trip photo #vacation #2024" yields
exactly the tag list [vacation, 2024] and the full caption as
description. -/
theorem c4_register_tags_amended (fid : String) (dn : Option String)
    (ft : String) (cap : Option String) (up now : Nat) (s : BotState) :
    (handle_file true fid dn ft cap up now s).1.files
      = s.files ++ [mkFileRecord fid dn ft cap up now] ∧
    (mkFileRecord fid dn ft cap up now).description = cap.getD "" ∧
    ((cap.getD "").toList.contains '#' = true →
      (mkFileRecord fid dn ft cap up now).tags
        = (splitWS (cap.getD "")).filterMap
            (fun w => if pyStartsWith w "#" then some (stripHash w) else none)) ∧
    ((cap.getD "").toList.contains '#' = false →
      (mkFileRecord fid dn ft cap up now).tags = []) ∧
    extract_tags "trip photo #vacation #2024" = ["vacation", "2024"] ∧
    extract_tags "#Tag #Tag" = ["Tag", "Tag"] := by
  refine ⟨rfl, rfl, ?_, ?_, by decide, by decide⟩
  · intro h
    show extract_tags (cap.getD "") = _
    rw [extract_tags, if_pos h]
    exact filter_map_eq_filterMap _ _ _
  · intro h
    show extract_tags (cap.getD "") = _
    have h2 : ¬((cap.getD "").toList.contains '#' = true) := by
      rw [h]; exact Bool.false_ne_true
    rw [extract_tags, if_neg h2]

/-- Claim C4, witness: the amended theorem applied to the example upload. -/
theorem c4_register_tags_amended_witness :
    (mkFileRecord "x" none "document" (some "trip photo #vacation #2024") 1 2).tags
      = ["vacation", "2024"] ∧
    (mkFileRecord "x" none "document" (some "trip photo #vacation #2024") 1 2).description
      = "trip photo #vacation #2024" := by
  have h := c4_register_tags_amended "x" none "document"
    (some "trip photo #vacation #2024") 1 2 initState
  refine ⟨?_, h.2.1⟩
  exact (h.2.2.1 (by decide)).trans (by decide)

/-- Claim C5, counterexample: two stored files both match the keyword, the
second one is the more recent upload, yet the query returns them in
insertion order (the older first), not ordered by most-recent uploadedAt
first as the claim states.  The keyword x is free of regex metacharacters,
so at this input the literal query is exactly the behavior of the
program. -/
theorem c5_search_order_counterexample :
    regexLiteral "x" = true ∧
    olderFile.upload_date < newerFile.upload_date ∧
    search_files_re literalMatch [olderFile, newerFile] "x" = [olderFile, newerFile] ∧
    search_files [olderFile, newerFile] "x" = [olderFile, newerFile] ∧
    search_files [olderFile, newerFile] "x" ≠ [newerFile, olderFile] := by decide

/-- Claim C5, amended: the store runs the keyword as a regex pattern.  For
any regex engine and any keyword, the result is a subsequence of the store
in insertion order (not sorted by most-recent uploadedAt) of at most ten
files, and a call without arguments is refused, so no empty keyword
reaches the query.  For a keyword free of regex metacharacters — where
regex matching is literal substring search — the result is exactly the
literal query: every returned file matches the keyword (case-insensitive
substring of name or description, or exact membership of the lowercased
keyword in the tag list) and every matching file is returned unless the
ten-result cap is reached.  For a keyword with metacharacters the program
follows the full regex semantics of the server, which the model leaves
unconstrained. -/
theorem c5_search_amended (rm : String → String → Bool)
    (hrm : ∀ kw s, regexLiteral kw = true → rm kw s = literalMatch kw s)
    (files : List FileRecord) (kw : String) :
    (search_files_re rm files kw).Sublist files ∧
    (search_files_re rm files kw).length ≤ 10 ∧
    (regexLiteral kw = true →
      search_files_re rm files kw = search_files files kw ∧
      (∀ f ∈ search_files_re rm files kw, matchesKw kw f = true ∧ f ∈ files) ∧
      (∀ f ∈ files, matchesKw kw f = true →
        f ∈ search_files_re rm files kw ∨ (search_files_re rm files kw).length = 10)) ∧
    search_cmd true [] files = CmdResult.usageError := by
  refine ⟨search_files_re_sublist rm files kw, search_files_re_length rm files kw,
    ?_, rfl⟩
  intro hkw
  have heq := search_files_re_eq_literal rm hrm files kw hkw
  refine ⟨heq, ?_, ?_⟩
  · intro f hf
    rw [heq] at hf
    exact mem_search_files hf
  · intro f hf hm
    rw [heq]
    exact search_files_complete hf hm

/-- Claim C5, witness: the amended theorem applied at the literal engine
and the metacharacter-free keyword finance over a singleton store. -/
theorem c5_search_amended_witness :
    regexLiteral "finance" = true ∧
    search_files_re literalMatch [sampleFile] "finance" = [sampleFile] ∧
    matchesKw "finance" sampleFile = true ∧
    (search_files_re literalMatch [sampleFile] "finance").length ≤ 10 := by
  have h := c5_search_amended literalMatch (fun _ _ _ => rfl) [sampleFile] "finance"
  have hkw : regexLiteral "finance" = true := by decide
  obtain ⟨hsub, hlen, himp, husage⟩ := h
  obtain ⟨heq, hsound, hcomp⟩ := himp hkw
  have hs : search_files [sampleFile] "finance" = [sampleFile] := by decide
  have hmem : sampleFile ∈ search_files_re literalMatch [sampleFile] "finance" := by
    rw [heq, hs]
    exact List.mem_singleton_self _
  exact ⟨hkw, heq.trans hs, (hsound sampleFile hmem).1, hlen⟩

/-- Claim C6, counterexample: a confirmed file deletion decrements the
total_files counter, so the stats counters are not monotonic as claimed. -/
theorem c6_files_decrement_counterexample :
    (step [] sampleState (Event.callback "delete_yes_f1" true 2)).stats.total_files
      < sampleState.stats.total_files := by decide

/-- Claim C6, amended: the total_downloads and total_users counters never
decrease under any operation of the system; total_files is not monotonic
(a confirmed deletion decrements it), and the stats document has no
searches counter at all (searching changes no counter). -/
theorem c6_counters_monotone_amended (admin_ids : List Nat) (s : BotState)
    (e : Event) :
    s.stats.total_downloads ≤ (step admin_ids s e).stats.total_downloads ∧
    s.stats.total_users ≤ (step admin_ids s e).stats.total_users := by
  cases e with
  | startCmd uid now =>
    simp only [step]
    rw [start_cmd]
    split
    · exact ⟨Nat.le_refl _, Nat.le_refl _⟩
    · refine ⟨?_, ?_⟩ <;> simp [update_stats]
  | upload fid dn ft cap up now =>
    simp only [step]
    rw [handle_file]
    refine ⟨?_, ?_⟩ <;> simp [update_stats]
  | editDescCmd fid d => exact ⟨Nat.le_refl _, Nat.le_refl _⟩
  | editNameCmd fid n => exact ⟨Nat.le_refl _, Nat.le_refl _⟩
  | addTagCmd fid t => exact ⟨Nat.le_refl _, Nat.le_refl _⟩
  | removeTagCmd fid t => exact ⟨Nat.le_refl _, Nat.le_refl _⟩
  | addAdminCmd nid req now => exact ⟨Nat.le_refl _, Nat.le_refl _⟩
  | removeAdminCmd t => exact ⟨Nat.le_refl _, Nat.le_refl _⟩
  | callback data dOk now => exact handle_callback_stats_mono true data dOk now s

/-- Claim C8: after a confirmed deletion of a file id (in a store with
unique ids), a lookup of that id is absent, no stored record carries the
id (so neither the record nor any part of its embedded tag set remains
observable), and no search, for any keyword, returns a record with that
id. -/
theorem c8_delete_find_absent (s : BotState) (fid kw : String) (dOk : Bool)
    (now : Nat)
    (hnodup : (s.files.map FileRecord.file_id).Nodup)
    (hsub : isSub "delete_yes_".toList fid.toList = false) :
    find_one (handle_callback true ("delete_yes_" ++ fid) dOk now s).1.files fid = none ∧
    (∀ f ∈ (handle_callback true ("delete_yes_" ++ fid) dOk now s).1.files,
      f.file_id ≠ fid) ∧
    (∀ f ∈ search_files (handle_callback true ("delete_yes_" ++ fid) dOk now s).1.files kw,
      f.file_id ≠ fid) := by
  rw [handle_callback_delete_yes fid hsub dOk now s]
  rcases hfind : find_one s.files fid with _ | f
  · dsimp only
    have hall : ∀ f ∈ s.files, f.file_id ≠ fid := by
      intro f hf
      have := List.find?_eq_none.1 hfind f hf
      simpa using this
    exact ⟨hfind, hall, fun f hf => hall f (mem_search_files hf).2⟩
  · dsimp only
    have hcount : s.files.countP (fun x => x.file_id == fid) ≤ 1 :=
      countP_key_le_one FileRecord.file_id fid s.files hnodup
    have hall : ∀ g ∈ deleteFirst (fun g => g.file_id == fid) s.files,
        g.file_id ≠ fid := by
      intro g hg
      have := not_pred_of_mem_deleteFirst hcount g hg
      simpa using this
    exact ⟨find?_eq_none_of_countP hcount, hall,
      fun g hg => hall g (mem_search_files hg).2⟩

/-- Claim C8, witness: the theorem applied to the sample state. -/
theorem c8_delete_find_absent_witness :
    find_one (handle_callback true ("delete_yes_" ++ "f1") true 2 sampleState).1.files "f1"
      = none := by
  exact (c8_delete_find_absent sampleState "f1" "finance" true 2
    (by decide) (by decide)).1

/-- Claim C2, counterexample: the same download callback resolved twice
increments the download counter twice, so the counters are not identical
before and after the duplicate resolution and no alreadyResolved outcome
exists. -/
theorem c2_duplicate_download_counterexample :
    (handle_callback true "download_f1" true 3
        (handle_callback true "download_f1" true 2 sampleState).1).1.stats.total_downloads
      = 2 ∧
    (handle_callback true "download_f1" true 2 sampleState).1.stats.total_downloads
      = 1 := by decide

/-- Claim C2, amended: no pending-action token exists; duplicate callbacks
are dispatched on the payload string alone.  A duplicate delete
confirmation finds the file already gone and performs no further mutation
(reporting not-found rather than alreadyResolved), but a duplicate
download callback repeats the mutation: every replay increments the global
download counter and the per-file download count again. -/
theorem c2_duplicate_callback_amended (s : BotState) (fid : String)
    (now1 now2 : Nat) (dOk1 dOk2 : Bool)
    (hnodup : (s.files.map FileRecord.file_id).Nodup)
    (hsubDel : isSub "delete_yes_".toList fid.toList = false)
    (hsubDl : isSub "download_".toList fid.toList = false) :
    (handle_callback true ("delete_yes_" ++ fid) dOk2 now2
        (handle_callback true ("delete_yes_" ++ fid) dOk1 now1 s).1
      = ((handle_callback true ("delete_yes_" ++ fid) dOk1 now1 s).1,
         CbOutcome.deleteNotFound)) ∧
    (∀ f, find_one s.files fid = some f →
      (handle_callback true ("download_" ++ fid) dOk2 now2
          (handle_callback true ("download_" ++ fid) dOk1 now1 s).1).1.stats.total_downloads
        = s.stats.total_downloads + 2 ∧
      find_one (handle_callback true ("download_" ++ fid) dOk2 now2
          (handle_callback true ("download_" ++ fid) dOk1 now1 s).1).1.files fid
        = some { f with download_count := f.download_count + 2 }) := by
  constructor
  · rw [handle_callback_delete_yes fid hsubDel dOk1 now1 s]
    rcases hfind : find_one s.files fid with _ | f
    · dsimp only
      rw [handle_callback_delete_yes fid hsubDel dOk2 now2 s, hfind]
    · dsimp only
      rw [handle_callback_delete_yes fid hsubDel dOk2 now2]
      have hnone : find_one (deleteFirst (fun g => g.file_id == fid) s.files) fid = none :=
        find?_eq_none_of_countP (countP_key_le_one FileRecord.file_id fid s.files hnodup)
      dsimp only
      rw [hnone]
  · intro f hf
    have hstep1 : find_one (inc_download s.files fid) fid
        = some { f with download_count := f.download_count + 1 } :=
      find?_updateFirst (fun g : FileRecord => { g with download_count := g.download_count + 1 })
        (fun y hy => hy) hf
    rw [handle_callback_download fid hsubDl dOk1 now1 s, hf]
    dsimp only
    rw [handle_callback_download fid hsubDl dOk2 now2, hstep1]
    dsimp only
    constructor
    · simp [update_stats]
    · have hstep2 : find_one (inc_download (inc_download s.files fid) fid) fid
          = some { f with download_count := f.download_count + 1 + 1 } :=
        find?_updateFirst (fun g : FileRecord => { g with download_count := g.download_count + 1 })
          (by intro y hy; exact hy) hstep1
      exact hstep2

/-- Claim C2, witness: the amended theorem applied to the sample state. -/
theorem c2_duplicate_callback_amended_witness :
    (handle_callback true ("delete_yes_" ++ "f1") true 3
        (handle_callback true ("delete_yes_" ++ "f1") true 2 sampleState).1
      = ((handle_callback true ("delete_yes_" ++ "f1") true 2 sampleState).1,
         CbOutcome.deleteNotFound)) ∧
    (handle_callback true ("download_" ++ "f1") true 3
        (handle_callback true ("download_" ++ "f1") true 2 sampleState).1).1.stats.total_downloads
      = sampleState.stats.total_downloads + 2 := by
  have h := c2_duplicate_callback_amended sampleState "f1" 2 3 true true
    (by decide) (by decide) (by decide)
  exact ⟨h.1, (h.2 sampleFile (by decide)).1⟩

end FileBot
